import Mathlib

/-!
Shallow embedding of the supersidian core (supersidian/supersidian.py and
supersidian/storage.py): the line-reflow engine `unwrap_and_markdown`, the
aggressive cleanup pass `apply_aggressive_cleanups`, the task extractor
`extract_tasks_from_markdown`, and the synchronization ledger
(`get_known_task_ids` / `record_task_sync_results`) together with the
per-note orchestration in `process_note_for_bridge`.

Lines of text are modelled as `List Char`; Python strings are translated
via `String.data`.  Each Python regular expression used by the code is
translated into a deterministic matcher that reproduces the
leftmost/greedy backtracking behaviour of `re.match` / `re.search` on
that concrete pattern.
-/

set_option maxRecDepth 1000000

namespace Supersidian

/-- Python whitespace (the characters stripped by `str.strip()` and matched
by `\s`): ASCII whitespace, the C1 separators, NBSP and the Unicode
space/line separators. -/
def isPySpace (c : Char) : Bool :=
  c = ' ' || c = '\t' || c = '\n' || c = '\x0b' || c = '\x0c' || c = '\r' ||
  c = '\x1c' || c = '\x1d' || c = '\x1e' || c = '\x1f' || c = '\x85' ||
  c = '\xa0' || c = '\u1680' ||
  ('\u2000' ≤ c && c ≤ '\u200a') ||
  c = '\u2028' || c = '\u2029' || c = '\u202f' || c = '\u205f' || c = '\u3000'

/-- The Unicode codepoint ranges matched by `\d` in a Python `str`
regex (the decimal digits, Unicode category Nd), computed from CPython's
`re` module over the whole codepoint space. -/
def pyDigitRanges : List (Nat × Nat) :=
  [(48, 57), (1632, 1641), (1776, 1785), (1984, 1993), (2406, 2415),
   (2534, 2543), (2662, 2671), (2790, 2799), (2918, 2927), (3046, 3055),
   (3174, 3183), (3302, 3311), (3430, 3439), (3558, 3567), (3664, 3673),
   (3792, 3801), (3872, 3881), (4160, 4169), (4240, 4249), (6112, 6121),
   (6160, 6169), (6470, 6479), (6608, 6617), (6784, 6793), (6800, 6809),
   (6992, 7001), (7088, 7097), (7232, 7241), (7248, 7257), (42528, 42537),
   (43216, 43225), (43264, 43273), (43472, 43481), (43504, 43513), (43600,
   43609), (44016, 44025), (65296, 65305), (66720, 66729), (68912, 68921),
   (69734, 69743), (69872, 69881), (69942, 69951), (70096, 70105), (70384,
   70393), (70736, 70745), (70864, 70873), (71248, 71257), (71360, 71369),
   (71472, 71481), (71904, 71913), (72016, 72025), (72784, 72793), (73040,
   73049), (73120, 73129), (92768, 92777), (92864, 92873), (93008, 93017),
   (120782, 120831), (123200, 123209), (123632, 123641), (125264, 125273),
   (130032, 130041)]

/-- `\d` in a Python `str` regex: any Unicode decimal digit. -/
def pyIsDigit (c : Char) : Bool :=
  pyDigitRanges.any (fun p => p.1 ≤ c.toNat && c.toNat ≤ p.2)

/-- The Unicode codepoint ranges on which Python's `str.isupper()` is
true for a single character, computed from CPython over the whole
codepoint space. -/
def pyUpperRanges : List (Nat × Nat) :=
  [(65, 90), (192, 214), (216, 222), (256, 256), (258, 258), (260, 260),
   (262, 262), (264, 264), (266, 266), (268, 268), (270, 270), (272, 272),
   (274, 274), (276, 276), (278, 278), (280, 280), (282, 282), (284, 284),
   (286, 286), (288, 288), (290, 290), (292, 292), (294, 294), (296, 296),
   (298, 298), (300, 300), (302, 302), (304, 304), (306, 306), (308, 308),
   (310, 310), (313, 313), (315, 315), (317, 317), (319, 319), (321, 321),
   (323, 323), (325, 325), (327, 327), (330, 330), (332, 332), (334, 334),
   (336, 336), (338, 338), (340, 340), (342, 342), (344, 344), (346, 346),
   (348, 348), (350, 350), (352, 352), (354, 354), (356, 356), (358, 358),
   (360, 360), (362, 362), (364, 364), (366, 366), (368, 368), (370, 370),
   (372, 372), (374, 374), (376, 377), (379, 379), (381, 381), (385, 386),
   (388, 388), (390, 391), (393, 395), (398, 401), (403, 404), (406, 408),
   (412, 413), (415, 416), (418, 418), (420, 420), (422, 423), (425, 425),
   (428, 428), (430, 431), (433, 435), (437, 437), (439, 440), (444, 444),
   (452, 452), (455, 455), (458, 458), (461, 461), (463, 463), (465, 465),
   (467, 467), (469, 469), (471, 471), (473, 473), (475, 475), (478, 478),
   (480, 480), (482, 482), (484, 484), (486, 486), (488, 488), (490, 490),
   (492, 492), (494, 494), (497, 497), (500, 500), (502, 504), (506, 506),
   (508, 508), (510, 510), (512, 512), (514, 514), (516, 516), (518, 518),
   (520, 520), (522, 522), (524, 524), (526, 526), (528, 528), (530, 530),
   (532, 532), (534, 534), (536, 536), (538, 538), (540, 540), (542, 542),
   (544, 544), (546, 546), (548, 548), (550, 550), (552, 552), (554, 554),
   (556, 556), (558, 558), (560, 560), (562, 562), (570, 571), (573, 574),
   (577, 577), (579, 582), (584, 584), (586, 586), (588, 588), (590, 590),
   (880, 880), (882, 882), (886, 886), (895, 895), (902, 902), (904, 906),
   (908, 908), (910, 911), (913, 929), (931, 939), (975, 975), (978, 980),
   (984, 984), (986, 986), (988, 988), (990, 990), (992, 992), (994, 994),
   (996, 996), (998, 998), (1000, 1000), (1002, 1002), (1004, 1004),
   (1006, 1006), (1012, 1012), (1015, 1015), (1017, 1018), (1021, 1071),
   (1120, 1120), (1122, 1122), (1124, 1124), (1126, 1126), (1128, 1128),
   (1130, 1130), (1132, 1132), (1134, 1134), (1136, 1136), (1138, 1138),
   (1140, 1140), (1142, 1142), (1144, 1144), (1146, 1146), (1148, 1148),
   (1150, 1150), (1152, 1152), (1162, 1162), (1164, 1164), (1166, 1166),
   (1168, 1168), (1170, 1170), (1172, 1172), (1174, 1174), (1176, 1176),
   (1178, 1178), (1180, 1180), (1182, 1182), (1184, 1184), (1186, 1186),
   (1188, 1188), (1190, 1190), (1192, 1192), (1194, 1194), (1196, 1196),
   (1198, 1198), (1200, 1200), (1202, 1202), (1204, 1204), (1206, 1206),
   (1208, 1208), (1210, 1210), (1212, 1212), (1214, 1214), (1216, 1217),
   (1219, 1219), (1221, 1221), (1223, 1223), (1225, 1225), (1227, 1227),
   (1229, 1229), (1232, 1232), (1234, 1234), (1236, 1236), (1238, 1238),
   (1240, 1240), (1242, 1242), (1244, 1244), (1246, 1246), (1248, 1248),
   (1250, 1250), (1252, 1252), (1254, 1254), (1256, 1256), (1258, 1258),
   (1260, 1260), (1262, 1262), (1264, 1264), (1266, 1266), (1268, 1268),
   (1270, 1270), (1272, 1272), (1274, 1274), (1276, 1276), (1278, 1278),
   (1280, 1280), (1282, 1282), (1284, 1284), (1286, 1286), (1288, 1288),
   (1290, 1290), (1292, 1292), (1294, 1294), (1296, 1296), (1298, 1298),
   (1300, 1300), (1302, 1302), (1304, 1304), (1306, 1306), (1308, 1308),
   (1310, 1310), (1312, 1312), (1314, 1314), (1316, 1316), (1318, 1318),
   (1320, 1320), (1322, 1322), (1324, 1324), (1326, 1326), (1329, 1366),
   (4256, 4293), (4295, 4295), (4301, 4301), (5024, 5109), (7312, 7354),
   (7357, 7359), (7680, 7680), (7682, 7682), (7684, 7684), (7686, 7686),
   (7688, 7688), (7690, 7690), (7692, 7692), (7694, 7694), (7696, 7696),
   (7698, 7698), (7700, 7700), (7702, 7702), (7704, 7704), (7706, 7706),
   (7708, 7708), (7710, 7710), (7712, 7712), (7714, 7714), (7716, 7716),
   (7718, 7718), (7720, 7720), (7722, 7722), (7724, 7724), (7726, 7726),
   (7728, 7728), (7730, 7730), (7732, 7732), (7734, 7734), (7736, 7736),
   (7738, 7738), (7740, 7740), (7742, 7742), (7744, 7744), (7746, 7746),
   (7748, 7748), (7750, 7750), (7752, 7752), (7754, 7754), (7756, 7756),
   (7758, 7758), (7760, 7760), (7762, 7762), (7764, 7764), (7766, 7766),
   (7768, 7768), (7770, 7770), (7772, 7772), (7774, 7774), (7776, 7776),
   (7778, 7778), (7780, 7780), (7782, 7782), (7784, 7784), (7786, 7786),
   (7788, 7788), (7790, 7790), (7792, 7792), (7794, 7794), (7796, 7796),
   (7798, 7798), (7800, 7800), (7802, 7802), (7804, 7804), (7806, 7806),
   (7808, 7808), (7810, 7810), (7812, 7812), (7814, 7814), (7816, 7816),
   (7818, 7818), (7820, 7820), (7822, 7822), (7824, 7824), (7826, 7826),
   (7828, 7828), (7838, 7838), (7840, 7840), (7842, 7842), (7844, 7844),
   (7846, 7846), (7848, 7848), (7850, 7850), (7852, 7852), (7854, 7854),
   (7856, 7856), (7858, 7858), (7860, 7860), (7862, 7862), (7864, 7864),
   (7866, 7866), (7868, 7868), (7870, 7870), (7872, 7872), (7874, 7874),
   (7876, 7876), (7878, 7878), (7880, 7880), (7882, 7882), (7884, 7884),
   (7886, 7886), (7888, 7888), (7890, 7890), (7892, 7892), (7894, 7894),
   (7896, 7896), (7898, 7898), (7900, 7900), (7902, 7902), (7904, 7904),
   (7906, 7906), (7908, 7908), (7910, 7910), (7912, 7912), (7914, 7914),
   (7916, 7916), (7918, 7918), (7920, 7920), (7922, 7922), (7924, 7924),
   (7926, 7926), (7928, 7928), (7930, 7930), (7932, 7932), (7934, 7934),
   (7944, 7951), (7960, 7965), (7976, 7983), (7992, 7999), (8008, 8013),
   (8025, 8025), (8027, 8027), (8029, 8029), (8031, 8031), (8040, 8047),
   (8120, 8123), (8136, 8139), (8152, 8155), (8168, 8172), (8184, 8187),
   (8450, 8450), (8455, 8455), (8459, 8461), (8464, 8466), (8469, 8469),
   (8473, 8477), (8484, 8484), (8486, 8486), (8488, 8488), (8490, 8493),
   (8496, 8499), (8510, 8511), (8517, 8517), (8544, 8559), (8579, 8579),
   (9398, 9423), (11264, 11311), (11360, 11360), (11362, 11364), (11367,
   11367), (11369, 11369), (11371, 11371), (11373, 11376), (11378, 11378),
   (11381, 11381), (11390, 11392), (11394, 11394), (11396, 11396), (11398,
   11398), (11400, 11400), (11402, 11402), (11404, 11404), (11406, 11406),
   (11408, 11408), (11410, 11410), (11412, 11412), (11414, 11414), (11416,
   11416), (11418, 11418), (11420, 11420), (11422, 11422), (11424, 11424),
   (11426, 11426), (11428, 11428), (11430, 11430), (11432, 11432), (11434,
   11434), (11436, 11436), (11438, 11438), (11440, 11440), (11442, 11442),
   (11444, 11444), (11446, 11446), (11448, 11448), (11450, 11450), (11452,
   11452), (11454, 11454), (11456, 11456), (11458, 11458), (11460, 11460),
   (11462, 11462), (11464, 11464), (11466, 11466), (11468, 11468), (11470,
   11470), (11472, 11472), (11474, 11474), (11476, 11476), (11478, 11478),
   (11480, 11480), (11482, 11482), (11484, 11484), (11486, 11486), (11488,
   11488), (11490, 11490), (11499, 11499), (11501, 11501), (11506, 11506),
   (42560, 42560), (42562, 42562), (42564, 42564), (42566, 42566), (42568,
   42568), (42570, 42570), (42572, 42572), (42574, 42574), (42576, 42576),
   (42578, 42578), (42580, 42580), (42582, 42582), (42584, 42584), (42586,
   42586), (42588, 42588), (42590, 42590), (42592, 42592), (42594, 42594),
   (42596, 42596), (42598, 42598), (42600, 42600), (42602, 42602), (42604,
   42604), (42624, 42624), (42626, 42626), (42628, 42628), (42630, 42630),
   (42632, 42632), (42634, 42634), (42636, 42636), (42638, 42638), (42640,
   42640), (42642, 42642), (42644, 42644), (42646, 42646), (42648, 42648),
   (42650, 42650), (42786, 42786), (42788, 42788), (42790, 42790), (42792,
   42792), (42794, 42794), (42796, 42796), (42798, 42798), (42802, 42802),
   (42804, 42804), (42806, 42806), (42808, 42808), (42810, 42810), (42812,
   42812), (42814, 42814), (42816, 42816), (42818, 42818), (42820, 42820),
   (42822, 42822), (42824, 42824), (42826, 42826), (42828, 42828), (42830,
   42830), (42832, 42832), (42834, 42834), (42836, 42836), (42838, 42838),
   (42840, 42840), (42842, 42842), (42844, 42844), (42846, 42846), (42848,
   42848), (42850, 42850), (42852, 42852), (42854, 42854), (42856, 42856),
   (42858, 42858), (42860, 42860), (42862, 42862), (42873, 42873), (42875,
   42875), (42877, 42878), (42880, 42880), (42882, 42882), (42884, 42884),
   (42886, 42886), (42891, 42891), (42893, 42893), (42896, 42896), (42898,
   42898), (42902, 42902), (42904, 42904), (42906, 42906), (42908, 42908),
   (42910, 42910), (42912, 42912), (42914, 42914), (42916, 42916), (42918,
   42918), (42920, 42920), (42922, 42926), (42928, 42932), (42934, 42934),
   (42936, 42936), (42938, 42938), (42940, 42940), (42942, 42942), (42944,
   42944), (42946, 42946), (42948, 42951), (42953, 42953), (42960, 42960),
   (42966, 42966), (42968, 42968), (42997, 42997), (65313, 65338), (66560,
   66599), (66736, 66771), (66928, 66938), (66940, 66954), (66956, 66962),
   (66964, 66965), (68736, 68786), (71840, 71871), (93760, 93791),
   (119808, 119833), (119860, 119885), (119912, 119937), (119964, 119964),
   (119966, 119967), (119970, 119970), (119973, 119974), (119977, 119980),
   (119982, 119989), (120016, 120041), (120068, 120069), (120071, 120074),
   (120077, 120084), (120086, 120092), (120120, 120121), (120123, 120126),
   (120128, 120132), (120134, 120134), (120138, 120144), (120172, 120197),
   (120224, 120249), (120276, 120301), (120328, 120353), (120380, 120405),
   (120432, 120457), (120488, 120512), (120546, 120570), (120604, 120628),
   (120662, 120686), (120720, 120744), (120778, 120778), (125184, 125217),
   (127280, 127305), (127312, 127337), (127344, 127369)]

/-- `ch.isupper()` for a single character. -/
def pyIsUpper (c : Char) : Bool :=
  pyUpperRanges.any (fun p => p.1 ≤ c.toNat && c.toNat ≤ p.2)

def isAsciiUpper (c : Char) : Bool := 'A' ≤ c && c ≤ 'Z'

def isAsciiLower (c : Char) : Bool := 'a' ≤ c && c ≤ 'z'

def isAsciiAlpha (c : Char) : Bool := isAsciiUpper c || isAsciiLower c

/-- `ch.upper()` on a single character (ASCII letters). -/
def pyUpperChar (c : Char) : Char :=
  if isAsciiLower c then Char.ofNat (c.toNat - 32) else c

/-- `s.lstrip()` on a line. -/
def pyLstripL (l : List Char) : List Char := l.dropWhile isPySpace

/-- `s.rstrip()` on a line. -/
def pyRstripL (l : List Char) : List Char :=
  (l.reverse.dropWhile isPySpace).reverse

/-- `s.strip()` on a line. -/
def pyStripL (l : List Char) : List Char := pyRstripL (pyLstripL l)

/-- One step of `str.replace`: fuel-indexed scan replacing every
non-overlapping occurrence of `pat` (left to right), continuing after the
replaced text, exactly as Python's `str.replace` does. -/
def replaceAllAux (pat rep : List Char) : Nat → List Char → List Char
  | _, [] => []
  | 0, l => l
  | fuel + 1, c :: rest =>
    if pat ≠ [] ∧ pat.isPrefixOf (c :: rest) then
      rep ++ replaceAllAux pat rep fuel (List.drop (pat.length - 1) rest)
    else
      c :: replaceAllAux pat rep fuel rest

/-- `s.replace(pat, rep)`. -/
def replaceAllL (pat rep l : List Char) : List Char :=
  replaceAllAux pat rep l.length l

/-- `text.split("\n")` (keeps empty fields, never returns `[]`). -/
def splitOnNL : List Char → List (List Char)
  | [] => [[]]
  | '\n' :: rest => [] :: splitOnNL rest
  | c :: rest =>
    match splitOnNL rest with
    | h :: t => (c :: h) :: t
    | [] => [[c]]

/-- `"\n".join(lines)`. -/
def joinNL (lines : List (List Char)) : List Char :=
  match lines with
  | [] => []
  | [l] => l
  | l :: rest => l ++ '\n' :: joinNL rest

/-- `BULLET_CHARS = "•–—*-+·►"`. -/
def bulletChars : List Char := ['•', '–', '—', '*', '-', '+', '·', '►']

/-- `re.match(r"^\s*(?:[•–—*\-+·►]|\[[ xX]\])\s+", line)` as a Boolean. -/
def bulletStartL (l : List Char) : Bool :=
  match pyLstripL l with
  | c :: d :: rest =>
    (bulletChars.contains c && isPySpace d) ||
    (match c :: d :: rest with
     | '[' :: m :: ']' :: e :: _ =>
       (m = ' ' || m = 'x' || m = 'X') && isPySpace e
     | _ => false)
  | _ => false

/-- `re.match(r"^\s*\d+[\.)]\s+", line)` as a Boolean. -/
def numberedStartL (l : List Char) : Bool :=
  let r := pyLstripL l
  let ds := r.takeWhile pyIsDigit
  ds ≠ [] &&
    match r.drop ds.length with
    | p :: d :: _ => (p = '.' || p = ')') && isPySpace d
    | _ => false

/-- `re.match(r"^\s*#{1,6}\s+", line)` as a Boolean: a hash run of length
1..6 (a longer run can never satisfy the following `\s+`) followed by
whitespace. -/
def headingStartL (l : List Char) : Bool :=
  let r := pyLstripL l
  let hs := r.takeWhile (· = '#')
  1 ≤ hs.length && hs.length ≤ 6 &&
    match r.drop hs.length with
    | d :: _ => isPySpace d
    | _ => false

/-- `re.match(r"^\s*(?:\(\]|I\]|1\]|l\]|\|\]|☐|☑|☒|\[×\])", line)`. -/
def taskishStartL (l : List Char) : Bool :=
  let r := pyLstripL l
  ['(', ']'].isPrefixOf r || ['I', ']'].isPrefixOf r ||
  ['1', ']'].isPrefixOf r || ['l', ']'].isPrefixOf r ||
  ['|', ']'].isPrefixOf r || ['☐'].isPrefixOf r ||
  ['☑'].isPrefixOf r || ['☒'].isPrefixOf r ||
  ['[', '×', ']'].isPrefixOf r

/-- `curr_new_block` in pass 1 of `unwrap_and_markdown`. -/
def isNewBlockL (l : List Char) : Bool :=
  bulletStartL l || numberedStartL l || headingStartL l || taskishStartL l ||
    pyStripL l = []

/-- `prev.endswith("  ")` (two literal space characters). -/
def endsTwoSpaces (l : List Char) : Bool :=
  match l.reverse with
  | ' ' :: ' ' :: _ => true
  | _ => false

/-- `re.search(r"[^\s-]-$", prev)`: the line ends in a hyphen directly
following a non-space, non-hyphen character. -/
def prevHyphenL (l : List Char) : Bool :=
  match l.reverse with
  | '-' :: p :: _ => !isPySpace p && p ≠ '-'
  | _ => false

/-- `line and line.lstrip() and line.lstrip()[0].isupper()`. -/
def currLooksItemL (l : List Char) : Bool :=
  match pyLstripL l with
  | c :: _ => pyIsUpper c
  | [] => false

/-- Pass 1 of `unwrap_and_markdown` (continuation merging): the loop body,
carrying `out[-1]` (`prev`), the rest of `out` (reversed), and
`last_heading_index`. -/
def pass1Go : List Char → List (List Char) → Int → List (List Char) →
    List (List Char)
  | prev, outTail, _, [] => (prev :: outTail).reverse
  | prev, outTail, lhi, line :: rest =>
    let outLen : Int := (outTail.length : Int) + 1
    let lhi' : Int := if headingStartL line then outLen else lhi
    let prevHard : Bool := pyStripL prev = [] || endsTwoSpaces prev
    let nearHeading : Bool := outLen - lhi' ≤ 5
    if !prevHard && !isNewBlockL line && !headingStartL prev &&
        !currLooksItemL line && !nearHeading then
      let merged : List Char :=
        if prevHyphenL prev then prev.dropLast ++ pyLstripL line
        else pyRstripL prev ++ ' ' :: pyLstripL line
      pass1Go merged outTail lhi' rest
    else
      pass1Go line (prev :: outTail) lhi' rest

/-- Pass 1 of `unwrap_and_markdown` on the list of raw lines: the first
line is emitted as-is; `last_heading_index` starts at `-10`, or `0` when
the first line is a heading. -/
def pass1 (lines : List (List Char)) : List (List Char) :=
  match lines with
  | [] => []
  | first :: rest =>
    pass1Go first [] (if headingStartL first then 0 else -10) rest

/-- `_cap_first_letter`: capitalize the first alphabetic character, leaving
the rest unchanged. -/
def capFirst : List Char → List Char
  | [] => []
  | c :: rest =>
    if isAsciiAlpha c then pyUpperChar c :: rest else c :: capFirst rest

/-- The ordered `str.replace` table normalizing Supernote checkbox variants
and bracket mis-OCRs (pass 2, applied before the structural rules). -/
def replacementTable : List (List Char × List Char) :=
  [(['☐'], ['[', ' ', ']']),
   (['☑'], ['[', 'x', ']']),
   (['☒'], ['[', 'x', ']']),
   (['[', '×', ']'], ['[', 'x', ']']),
   (['［'], ['[']), (['【'], ['[']), (['〖'], ['[']), (['『'], ['[']),
   (['］'], [']']), (['】'], [']']), (['〗'], [']']), (['』'], [']']),
   (['(', ']'], ['[', ' ', ']']),
   (['I', ']'], ['[', ' ', ']']),
   (['1', ']'], ['[', ' ', ']']),
   (['l', ']'], ['[', ' ', ']']),
   (['|', ']'], ['[', ' ', ']'])]

def normalizeGlyphs (l : List Char) : List Char :=
  replacementTable.foldl (fun acc pr => replaceAllL pr.1 pr.2 acc) l

/-- The tail of the mid-line nested-bullet pattern
(`\s+-\s+(-{1,6})\s*(.*)$` after the prefix group): returns the length of
the extra-hyphen group (greedily capped at 6) and the content group. -/
def midTailMatch (t : List Char) : Option (Nat × List Char) :=
  let w := t.takeWhile isPySpace
  if w = [] then none else
  match t.drop w.length with
  | '-' :: u =>
    let w2 := u.takeWhile isPySpace
    if w2 = [] then none else
    let v := u.drop w2.length
    let hs := v.takeWhile (· = '-')
    if hs = [] then none else
    let h := min hs.length 6
    some (h, (v.drop h).dropWhile isPySpace)
  | _ => none

/-- Greedy search for the `(.*\S)` group of the mid-line pattern: the
longest nonempty prefix of `r` ending in a non-space character whose
remainder matches the tail pattern. -/
def midFindB (r : List Char) : Nat → Option (List Char × Nat × List Char)
  | 0 => none
  | k + 1 =>
    let b := r.take (k + 1)
    let t := r.drop (k + 1)
    if (match b.getLast? with | some c => !isPySpace c | none => false) then
      match midTailMatch t with
      | some (h, content) => some (b, h, content)
      | none => midFindB r k
    else midFindB r k

/-- `re.match(r"^(\s*)(.*\S)\s+-\s+(-{1,6})\s*(.*)$", line)`: groups
(indent, prefix, extra-hyphen count, content). -/
def midMatch (l : List Char) :
    Option (List Char × List Char × Nat × List Char) :=
  let a := l.takeWhile isPySpace
  let r := l.dropWhile isPySpace
  match midFindB r r.length with
  | some (b, h, content) => some (a, b, h, content)
  | none => none

/-- `re.match(r"^(\s*)-\s+(-{1,6})\s*(.*)$", line)`: groups
(indent, extra-hyphen count, content). -/
def specialMatch (l : List Char) : Option (List Char × Nat × List Char) :=
  let a := l.takeWhile isPySpace
  match l.dropWhile isPySpace with
  | '-' :: u =>
    let w := u.takeWhile isPySpace
    if w = [] then none else
    let v := u.drop w.length
    let hs := v.takeWhile (· = '-')
    if hs = [] then none else
    let h := min hs.length 6
    some (a, h, (v.drop h).dropWhile isPySpace)
  | _ => none

/-- `re.match(r"^(\s*)(-{1,6})\s+(.*)$", line)`: groups
(indent, hyphen count, content).  A hyphen run longer than 6 can never
satisfy the following `\s+`, so the run must have length 1..6. -/
def nestMatch (l : List Char) : Option (List Char × Nat × List Char) :=
  let a := l.takeWhile isPySpace
  let r := l.dropWhile isPySpace
  let hs := r.takeWhile (· = '-')
  if hs = [] || 6 < hs.length then none else
  match r.drop hs.length with
  | d :: _ =>
    if isPySpace d then
      some (a, hs.length, (r.drop hs.length).dropWhile isPySpace)
    else none
  | [] => none

/-- `re.match(r"^(\s*)\[( |x|X)\]\s+(.*)$", line)`: groups
(indent, mark, content). -/
def taskMatch (l : List Char) : Option (List Char × Char × List Char) :=
  let a := l.takeWhile isPySpace
  match l.dropWhile isPySpace with
  | '[' :: m :: ']' :: u =>
    if m = ' ' || m = 'x' || m = 'X' then
      let w := u.takeWhile isPySpace
      if w = [] then none else some (a, m, u.dropWhile isPySpace)
    else none
  | _ => none

/-- `bullet_rx.match(line)` together with `bullet_rx.sub("", line)`:
returns the indent group and the line with the whole anchored match
removed. -/
def bulletMatch (l : List Char) : Option (List Char × List Char) :=
  let a := l.takeWhile isPySpace
  let r := l.dropWhile isPySpace
  match r with
  | c :: u =>
    if bulletChars.contains c then
      let w := u.takeWhile isPySpace
      if w = [] then none else some (a, u.dropWhile isPySpace)
    else
      match r with
      | '[' :: m :: ']' :: u2 =>
        if m = ' ' || m = 'x' || m = 'X' then
          let w := u2.takeWhile isPySpace
          if w = [] then none else some (a, u2.dropWhile isPySpace)
        else none
      | _ => none
  | [] => none

/-- `num_rx.match(line)` together with `num_rx.sub("", line)`: groups
(indent, digit run, content after the marker). -/
def numMatch (l : List Char) : Option (List Char × List Char × List Char) :=
  let a := l.takeWhile isPySpace
  let r := l.dropWhile isPySpace
  let ds := r.takeWhile pyIsDigit
  if ds = [] then none else
  match r.drop ds.length with
  | p :: u =>
    if p = '.' || p = ')' then
      let w := u.takeWhile isPySpace
      if w = [] then none else some (a, ds, u.dropWhile isPySpace)
    else none
  | [] => none

/-- `"    " * n`. -/
def fourIndent (n : Nat) : List Char := List.replicate (4 * n) ' '

/-- Pass 2 of `unwrap_and_markdown` applied to one merged line: blank and
heading lines pass through right-trimmed; otherwise look-alike glyphs are
normalized and the fixed rule chain (mid-line split, leading nested
bullet, explicit nesting markers, explicit task, bullet glyph, numbered
marker, plain fallthrough) is applied, first match wins. -/
def classifyLine (l : List Char) : List (List Char) :=
  if pyStripL l = [] || headingStartL l then [pyRstripL l]
  else
    let n := normalizeGlyphs l
    match midMatch n with
    | some (a, b, h, content) =>
      [a ++ pyRstripL b,
       a ++ fourIndent h ++ '-' :: ' ' :: capFirst (pyRstripL content)]
    | none =>
    match specialMatch n with
    | some (a, h, content) =>
      [a ++ fourIndent h ++ '-' :: ' ' :: capFirst (pyRstripL content)]
    | none =>
    match nestMatch n with
    | some (a, h, content) =>
      [a ++ fourIndent (h - 1) ++ '-' :: ' ' :: capFirst (pyRstripL content)]
    | none =>
    match taskMatch n with
    | some (a, m, content) =>
      let mark : Char := if m = 'x' || m = 'X' then 'x' else ' '
      [a ++ '-' :: ' ' :: '[' :: mark :: ']' :: ' ' ::
        capFirst (pyRstripL content)]
    | none =>
    match bulletMatch n with
    | some (a, contentRaw) =>
      let content := pyRstripL contentRaw
      let hs := content.takeWhile (· = '-')
      if !hs.isEmpty && hs.length ≤ 6 &&
          (match content.drop hs.length with
           | d :: _ => isPySpace d
           | [] => false) then
        let ncontent := (content.drop hs.length).dropWhile isPySpace
        [a ++ fourIndent (hs.length - 1) ++ '-' :: ' ' ::
          capFirst (pyRstripL ncontent)]
      else
        [a ++ '-' :: ' ' :: capFirst content]
    | none =>
    match numMatch n with
    | some (a, ds, content) =>
      [a ++ ds ++ '.' :: ' ' :: capFirst (pyRstripL content)]
    | none => [pyRstripL n]

/-- `re.match(r"^(\s*)(#{1,6})\s*(\S.*)$", raw)`: groups
(indent, hashes, title).  The hash group is greedy and backtracks: with a
run of more than 6 the group is 6 hashes and the title starts at the 7th;
with a run of `k ≤ 6` followed only by whitespace the group backtracks to
`k-1` hashes and the title is the final hash plus the trailing
whitespace. -/
def headMatch (l : List Char) :
    Option (List Char × List Char × List Char) :=
  let indent := l.takeWhile isPySpace
  let r := l.dropWhile isPySpace
  let k := (r.takeWhile (· = '#')).length
  if k = 0 then none
  else if 6 < k then some (indent, List.replicate 6 '#', r.drop 6)
  else
    let afterWs := (r.drop k).dropWhile isPySpace
    if afterWs ≠ [] then some (indent, r.takeWhile (· = '#'), afterWs)
    else if 2 ≤ k then
      some (indent, List.replicate (k - 1) '#', r.drop (k - 1))
    else none

/-- The group `(#{1,6})` of `re.search(r"(#{1,6})\s*(\S.*)$", raw)` when the
match is attempted exactly at the start of `r`. -/
def hashGroupAt (r : List Char) : Option (List Char) :=
  let k := (r.takeWhile (· = '#')).length
  if k = 0 then none
  else if 6 < k then some (List.replicate 6 '#')
  else if (r.drop k).dropWhile isPySpace ≠ [] then some (r.takeWhile (· = '#'))
  else if 2 ≤ k then some (List.replicate (k - 1) '#')
  else none

/-- `re.search(r"(#{1,6})\s*(\S.*)$", raw)` (leftmost match), returning the
hash group. -/
def inlineSearch : List Char → Option (List Char)
  | [] => none
  | c :: rest =>
    match hashGroupAt (c :: rest) with
    | some hs => some hs
    | none => inlineSearch rest

/-- `raw.rfind(pat)`: the largest index at which `pat` occurs as a
substring, if any. -/
def rfindSub (l pat : List Char) : Option Nat :=
  ((List.range (l.length + 1)).filter
    (fun i => pat.isPrefixOf (l.drop i))).getLast?

/-- The body of the `apply_aggressive_cleanups` loop for one line: either
normalize a heading at the start of the line, or split an inline heading
out of the line, or leave the line unchanged. -/
def cleanupLine (raw : List Char) : List (List Char) :=
  let inlineBranch : List (List Char) :=
    match inlineSearch raw with
    | some hs =>
      match rfindSub raw hs with
      | some pos =>
        if 0 < pos then
          let pre := raw.take pos
          let heading := raw.drop pos
          if pyStripL pre ≠ [] then
            let headingLine :=
              match headMatch heading with
              | some (_, hs2, title) => hs2 ++ ' ' :: pyStripL title
              | none => pyStripL heading
            [pyRstripL pre, headingLine]
          else [raw]
        else [raw]
      | none => [raw]
    | none => [raw]
  match headMatch raw with
  | some (indent, hashes, title) =>
    if hashes.isPrefixOf (pyLstripL raw) then
      [indent ++ hashes ++ ' ' :: pyStripL title]
    else inlineBranch
  | none => inlineBranch

/-- `apply_aggressive_cleanups` on the classified lines. -/
def apply_aggressive_cleanups (lines : List (List Char)) :
    List (List Char) :=
  (lines.map cleanupLine).flatten

/-- `unwrap_and_markdown(text, aggressive)`: normalize line endings, run
pass 1 (continuation merging), pass 2 (structural classification per
line), optionally the aggressive cleanup pass, join with newlines, strip,
and append a trailing newline. -/
def unwrap_and_markdown (text : String) (aggressive : Bool) : String :=
  let raw := splitOnNL
    (replaceAllL ['\r'] ['\n'] (replaceAllL ['\r', '\n'] ['\n'] text.data))
  let merged := pass1 raw
  let final := (merged.map classifyLine).flatten
  let final2 := if aggressive then apply_aggressive_cleanups final else final
  String.mk (pyStripL (joinNL final2) ++ ['\n'])

/-! ## Task extraction (`extract_tasks_from_markdown`) -/

/-- `str(n)` in Python: decimal rendering of a natural number, computed
with structural fuel so that it reduces in the kernel. -/
def natToDecAux : Nat → Nat → List Char
  | 0, _ => []
  | fuel + 1, n =>
    if n < 10 then [Nat.digitChar n]
    else natToDecAux fuel (n / 10) ++ [Nat.digitChar (n % 10)]

def natToDecL (n : Nat) : List Char := natToDecAux (n + 1) n

def natToDec (n : Nat) : String := String.mk (natToDecL n)

/-- Decimal valuation, a left inverse of `natToDecL` used to prove that
decimal rendering is injective. -/
def decVal (ds : List Char) : Nat :=
  ds.foldl (fun a c => 10 * a + (c.toNat - 48)) 0

/-- A line terminator for `str.splitlines()`. -/
def lineTermChar (c : Char) : Bool :=
  c = '\n' || c = '\r' || c = '\x0b' || c = '\x0c' || c = '\x1c' ||
  c = '\x1d' || c = '\x1e' || c = '\x85' || c = '\u2028' || c = '\u2029'

/-- `str.splitlines()`: split at line terminators (`\r\n` counts as one),
with no trailing empty line. -/
def pySplitlinesGo : List Char → List Char → List (List Char)
  | acc, [] => if acc.isEmpty then [] else [acc.reverse]
  | acc, '\r' :: '\n' :: rest => acc.reverse :: pySplitlinesGo [] rest
  | acc, c :: rest =>
    if lineTermChar c then acc.reverse :: pySplitlinesGo [] rest
    else pySplitlinesGo (c :: acc) rest

def pySplitlines (l : List Char) : List (List Char) := pySplitlinesGo [] l

/-- `TASK_LINE_RX = re.compile(r"^(\s*)-\s\[( |x|X)\]\s+(.*)$")`: returns
the mark and the (untrimmed) title group. -/
def taskLineMatch (l : List Char) : Option (Char × List Char) :=
  match l.dropWhile isPySpace with
  | '-' :: s :: '[' :: m :: ']' :: u =>
    if isPySpace s && (m = ' ' || m = 'x' || m = 'X') then
      let w := u.takeWhile isPySpace
      if w = [] then none else some (m, u.dropWhile isPySpace)
    else none
  | _ => none

/-- The fields of `BridgeConfig` used by task extraction.
`vault_path_name` is `bridge.vault_path.name`, the basename of the vault
path. -/
structure BridgeConfig where
  name : String
  vault_path_name : String
deriving DecidableEq

/-- `LocalTask` from storage.py. -/
structure LocalTask where
  local_id : String
  bridge_name : String
  vault_name : String
  note_path : String
  line_no : Nat
  title : String
  completed : Bool
deriving DecidableEq

/-- `TaskSyncResult` from storage.py. -/
structure TaskSyncResult where
  local_id : String
  provider : String
  external_id : Option String
  status : String
  error : Option String
deriving DecidableEq

/-- The loop of `extract_tasks_from_markdown` over
`enumerate(md_body.splitlines(), start=1)`. -/
def extractGo (bname vname npath : String) :
    Nat → List (List Char) → List LocalTask
  | _, [] => []
  | idx, line :: rest =>
    match taskLineMatch line with
    | none => extractGo bname vname npath (idx + 1) rest
    | some (m, title) =>
      let t := pyStripL title
      if t.isEmpty then extractGo bname vname npath (idx + 1) rest
      else
        { local_id := bname ++ ":" ++ npath ++ ":" ++ natToDec idx,
          bridge_name := bname, vault_name := vname, note_path := npath,
          line_no := idx, title := String.mk t,
          completed := m = 'x' || m = 'X' } ::
        extractGo bname vname npath (idx + 1) rest

/-- `extract_tasks_from_markdown(md_body, bridge, rel_md_path)`. -/
def extract_tasks_from_markdown (md_body : String) (bridge : BridgeConfig)
    (rel_md_path : String) : List LocalTask :=
  extractGo bridge.name bridge.vault_path_name rel_md_path 1
    (pySplitlines md_body.data)

/-! ## The synchronization ledger (storage.py) -/

/-- One row of the `tasks` table. -/
structure TaskRow where
  local_id : String
  bridge_name : String
  vault_name : String
  note_path : String
  line_no : Nat
  title : String
  provider : Option String
  external_id : Option String
  status : String
  completed : Bool
  created_at : String
  last_synced_at : Option String
  last_error : Option String
deriving DecidableEq

/-- `SELECT * FROM tasks WHERE local_id = id` (the primary key). -/
def lookupRow (db : List TaskRow) (id : String) : Option TaskRow :=
  db.find? (fun row => row.local_id == id)

/-- `result_by_id = {r.local_id: r for r in results}` followed by `.get`:
the last result with the given `local_id` wins. -/
def resultFor (results : List TaskSyncResult) (id : String) :
    Option TaskSyncResult :=
  results.reverse.find? (fun r => r.local_id == id)

/-- The `DO UPDATE SET` arm of the upsert: update `provider`,
`external_id`, `status`, `completed`, `last_synced_at` and `last_error`
from the excluded row, leaving every other column — in particular
`created_at` — unchanged. -/
def updatedRow (now : String) (t : LocalTask) (r : TaskSyncResult)
    (row : TaskRow) : TaskRow :=
  { row with provider := some r.provider, external_id := r.external_id,
             status := r.status, completed := t.completed,
             last_synced_at := some now, last_error := r.error }

/-- The `INSERT` arm of the upsert: a fresh row with
`created_at = last_synced_at = now`. -/
def freshRow (now : String) (t : LocalTask) (r : TaskSyncResult) : TaskRow :=
  { local_id := t.local_id, bridge_name := t.bridge_name,
    vault_name := t.vault_name, note_path := t.note_path,
    line_no := t.line_no, title := t.title,
    provider := some r.provider, external_id := r.external_id,
    status := r.status, completed := t.completed,
    created_at := now, last_synced_at := some now, last_error := r.error }

/-- The `INSERT ... ON CONFLICT(local_id) DO UPDATE` statement for one
task/result pair: insert a fresh row with `created_at = now` when the key
is absent; otherwise update the conflicting row in place. -/
def upsertRow (now : String) (t : LocalTask) (r : TaskSyncResult)
    (db : List TaskRow) : List TaskRow :=
  if db.any (fun row => row.local_id == t.local_id) then
    db.map (fun row =>
      if row.local_id == t.local_id then updatedRow now t r row else row)
  else
    db ++ [freshRow now t r]

/-- `record_task_sync_results(tasks, results)` acting on the table `db`,
with `now = datetime.utcnow().isoformat(...)` passed explicitly: tasks
without a matching result are skipped, the rest are upserted in order. -/
def record_task_sync_results (now : String) (tasks : List LocalTask)
    (results : List TaskSyncResult) (db : List TaskRow) : List TaskRow :=
  tasks.foldl (fun acc t =>
    match resultFor results t.local_id with
    | none => acc
    | some r => upsertRow now t r acc) db

/-- `get_known_task_ids(local_ids)`: the subset of the given ids already
present in the `tasks` table (the empty input short-circuits). -/
def get_known_task_ids (ids : List String) (db : List TaskRow) :
    List String :=
  if ids.isEmpty then [] else ids.filter (fun id => (lookupRow db id).isSome)

/-- The candidate filter of `process_note_for_bridge`:
`new_tasks = [t for t in tasks if t.local_id not in known_ids]` and
`new_open_tasks = [t for t in new_tasks if not t.completed]`. -/
def newOpenTasks (tasks : List LocalTask) (db : List TaskRow) :
    List LocalTask :=
  let knownIds := get_known_task_ids (tasks.map (·.local_id)) db
  (tasks.filter (fun t => !knownIds.contains t.local_id)).filter
    (fun t => !t.completed)

/-- The task-handling block of `process_note_for_bridge` (lines 706-726):
on a non-empty extraction, filter to previously unseen open tasks; when
any remain, call the provider on exactly that batch and record the
results.  Returns the resulting ledger table. -/
def processNoteTasks (tasks : List LocalTask) (db : List TaskRow)
    (provider : List LocalTask → List TaskSyncResult) (now : String) :
    List TaskRow :=
  if tasks.isEmpty then db
  else
    let newOpen := newOpenTasks tasks db
    if newOpen.isEmpty then db
    else record_task_sync_results now newOpen (provider newOpen) db

/-! ## Concrete material for the ledger claims -/

/-- A previously unseen, already-completed task, as extracted from a
checked checklist line. -/
def exTaskDone : LocalTask :=
  { local_id := "b:n.md:2", bridge_name := "b", vault_name := "v",
    note_path := "n.md", line_no := 2, title := "Done thing",
    completed := true }

/-- A provider that returns exactly one successful result per input task
(the 1:1 discipline required of providers). -/
def exProvider (ts : List LocalTask) : List TaskSyncResult :=
  ts.map (fun t =>
    { local_id := t.local_id, provider := "todoist",
      external_id := some "ext-1", status := "created", error := none })

/-- A previously unseen open task. -/
def exTaskOpen : LocalTask :=
  { local_id := "b:n.md:1", bridge_name := "b", vault_name := "v",
    note_path := "n.md", line_no := 1, title := "Buy milk",
    completed := false }

/-- A first sync result for `exTaskDone.local_id`. -/
def exResult1 : TaskSyncResult :=
  { local_id := "b:n.md:2", provider := "todoist",
    external_id := some "ext-1", status := "created", error := none }

/-- A second sync result for `exTaskDone.local_id`, with a changed status
and external id. -/
def exResult2 : TaskSyncResult :=
  { local_id := "b:n.md:2", provider := "todoist",
    external_id := some "ext-2", status := "updated", error := none }

/-! ## Theorems -/

/-- Claim C1, counterexample: on the input `"- parent\n-- child"` (with
`aggressive = false`) `unwrap_and_markdown` does not return the two lines
`"- Parent"` and `"    - Child"`: pass 1 merges `"-- child"` into the
previous line (it matches no new-block pattern and does not start with an
uppercase letter), so rule 5 never sees the `--` marker. -/
theorem nesting_example_cex :
    unwrap_and_markdown "- parent\n-- child" false ≠
      "- Parent\n    - Child\n" := by decide

/-- Claim C1, amended: the input `"- parent\n-- child"` yields the single
merged line `"- Parent -- child"`; the claimed two-line output with the
`--` marker classified at depth 2 is produced when pass-1 merging is
blocked by an explicit hard break, as for `"- parent  \n-- child"`. -/
theorem nesting_example_amended :
    unwrap_and_markdown "- parent\n-- child" false = "- Parent -- child\n" ∧
    unwrap_and_markdown "- parent  \n-- child" false =
      "- Parent\n    - Child\n" :=
  ⟨by decide, by decide⟩

/-- Claim C8: the reflow function normalizes checkbox look-alike glyphs
into canonical checklist items: `"☐ buy milk"` becomes `"- [ ] Buy milk"`
and `"[x] done thing"` becomes `"- [x] Done thing"` (lower-cased mark,
first alphabetic character capitalized). -/
theorem checklist_normalization :
    unwrap_and_markdown "☐ buy milk" false = "- [ ] Buy milk\n" ∧
    unwrap_and_markdown "[x] done thing" false = "- [x] Done thing\n" :=
  ⟨by decide, by decide⟩

/-- Claim C2, counterexample: a previously unseen task with
`completed = true` is not recorded by `process_note_for_bridge`: starting
from an empty ledger, processing a note whose only extracted task is
completed leaves the ledger without any row for its `localId`. -/
theorem completed_task_not_recorded_cex :
    exTaskDone.completed = true ∧
    lookupRow [] exTaskDone.local_id = none ∧
    lookupRow (processNoteTasks [exTaskDone] [] exProvider
      "2025-01-01T00:00:00") exTaskDone.local_id = none := by decide

/-- Claim C9, counterexample.  Rule (b): the line `"## a ## b"` contains a
`#` run of length 2 later in the line with non-blank text before it, so
the claim demands a split into two lines; `apply_aggressive_cleanups`
instead keeps it as one line, because the column-zero heading branch
(whose regex allows whitespace between the hashes and the title) takes
priority.  Rule (a): `"#abc "` starts at column zero with a `#`
immediately followed by non-space text, so the claim demands the same
line with a single space inserted (`"# abc "`); the code instead trims
the title and produces `"# abc"`. -/
theorem aggressive_heading_cex :
    pyStripL (("## a ## b".data).take 5) ≠ [] ∧
    ("## a ## b".data).drop 5 = ['#', '#', ' ', 'b'] ∧
    apply_aggressive_cleanups ["## a ## b".data] = ["## a ## b".data] ∧
    apply_aggressive_cleanups ["#abc ".data] = ["# abc".data] ∧
    apply_aggressive_cleanups ["#abc ".data] ≠ ["# abc ".data] := by
  decide

theorem any_eq_lookup_isSome (db : List TaskRow) (id : String) :
    db.any (fun row => row.local_id == id) = (lookupRow db id).isSome := by
  induction db with
  | nil => rfl
  | cons h t ih =>
    unfold lookupRow at *
    cases hh : h.local_id == id <;>
      simp [List.find?_cons, List.any_cons, hh, ih]

theorem lookupRow_map_preserve (f : TaskRow → TaskRow)
    (hf : ∀ row, (f row).local_id = row.local_id) (db : List TaskRow)
    (id : String) :
    lookupRow (db.map f) id = (lookupRow db id).map f := by
  induction db with
  | nil => rfl
  | cons h t ih =>
    unfold lookupRow at *
    rw [List.map_cons, List.find?_cons, List.find?_cons]
    have hph : ((f h).local_id == id) = (h.local_id == id) := by rw [hf]
    rw [hph]
    cases hh : h.local_id == id <;> simp [ih]

theorem lookupRow_some_id {db : List TaskRow} {id : String} {row : TaskRow}
    (h : lookupRow db id = some row) : row.local_id = id := by
  have := List.find?_some h
  simpa using this

theorem lookupRow_upsertRow_ne (now : String) (t : LocalTask)
    (r : TaskSyncResult) (db : List TaskRow) (id : String)
    (h : t.local_id ≠ id) :
    lookupRow (upsertRow now t r db) id = lookupRow db id := by
  unfold upsertRow
  by_cases hany : db.any (fun row => row.local_id == t.local_id) = true
  · rw [if_pos hany]
    rw [lookupRow_map_preserve _ (fun row => by split <;> rfl)]
    cases hl : lookupRow db id with
    | none => rfl
    | some row =>
      have hrow : row.local_id = id := lookupRow_some_id hl
      have hcond : (row.local_id == t.local_id) = false := by
        rw [hrow, beq_eq_false_iff_ne]
        exact fun e => h e.symm
      rw [Option.map_some']
      rw [if_neg (by simp [hcond])]
  · rw [if_neg hany]
    unfold lookupRow
    rw [List.find?_append]
    have hsingle :
        List.find? (fun row => row.local_id == id) [freshRow now t r] =
          none := by
      have hcond : ((freshRow now t r).local_id == id) = false := by
        rw [show (freshRow now t r).local_id = t.local_id from rfl,
          beq_eq_false_iff_ne]
        exact h
      simp [List.find?_cons, hcond]
    rw [hsingle, Option.or_none]

theorem lookupRow_upsertRow_self (now : String) (t : LocalTask)
    (r : TaskSyncResult) (db : List TaskRow) :
    lookupRow (upsertRow now t r db) t.local_id =
      some (match lookupRow db t.local_id with
        | some old => updatedRow now t r old
        | none => freshRow now t r) := by
  unfold upsertRow
  by_cases hany : db.any (fun row => row.local_id == t.local_id) = true
  · rw [if_pos hany]
    rw [lookupRow_map_preserve _ (fun row => by split <;> rfl)]
    have hsome : (lookupRow db t.local_id).isSome := by
      rw [← any_eq_lookup_isSome]; exact hany
    obtain ⟨old, hold⟩ := Option.isSome_iff_exists.mp hsome
    rw [hold]
    have hid : old.local_id = t.local_id := lookupRow_some_id hold
    rw [Option.map_some']
    rw [if_pos (by simp [hid])]
  · rw [if_neg hany]
    have hnone : lookupRow db t.local_id = none := by
      cases ho : lookupRow db t.local_id with
      | none => rfl
      | some row =>
        exact absurd (by rw [any_eq_lookup_isSome, ho]; rfl) hany
    rw [hnone]
    unfold lookupRow
    rw [List.find?_append]
    unfold lookupRow at hnone
    rw [hnone, Option.none_or]
    have hcond : ((freshRow now t r).local_id == t.local_id) = true := by
      simp [freshRow]
    simp [List.find?_cons, hcond]

theorem lookupRow_record_of_not_mem (now : String) (ts : List LocalTask)
    (rs : List TaskSyncResult) (db : List TaskRow) (id : String)
    (h : ∀ u ∈ ts, u.local_id ≠ id) :
    lookupRow (record_task_sync_results now ts rs db) id =
      lookupRow db id := by
  induction ts generalizing db with
  | nil => rfl
  | cons u rest ih =>
    have h1 : ∀ v ∈ rest, v.local_id ≠ id :=
      fun v hv => h v (List.mem_cons_of_mem _ hv)
    have hu : u.local_id ≠ id := h u (List.mem_cons_self _ _)
    unfold record_task_sync_results at *
    simp only [List.foldl_cons]
    cases hres : resultFor rs u.local_id with
    | none => exact ih db h1
    | some r =>
      exact (ih _ h1).trans (lookupRow_upsertRow_ne now u r db id hu)

theorem record_upsert_spec (now : String) (tasks : List LocalTask)
    (results : List TaskSyncResult) (db : List TaskRow) (t : LocalTask)
    (r : TaskSyncResult)
    (hnd : (tasks.map (fun u => u.local_id)).Nodup) (hmem : t ∈ tasks)
    (hres : resultFor results t.local_id = some r) :
    lookupRow (record_task_sync_results now tasks results db) t.local_id =
      some (match lookupRow db t.local_id with
        | some old => updatedRow now t r old
        | none => freshRow now t r) := by
  induction tasks generalizing db with
  | nil => cases hmem
  | cons u rest ih =>
    rw [List.map_cons, List.nodup_cons] at hnd
    rcases List.mem_cons.mp hmem with rfl | hmem'
    · have hrest : ∀ v ∈ rest, v.local_id ≠ t.local_id := by
        intro v hv heq
        exact hnd.1 (heq ▸ List.mem_map_of_mem _ hv)
      unfold record_task_sync_results
      simp only [List.foldl_cons, hres]
      exact (lookupRow_record_of_not_mem now rest results _ _ hrest).trans
        (lookupRow_upsertRow_self now t r db)
    · have hne : u.local_id ≠ t.local_id :=
        fun heq => hnd.1 (heq ▸ List.mem_map_of_mem _ hmem')
      unfold record_task_sync_results
      simp only [List.foldl_cons]
      cases hru : resultFor results u.local_id with
      | none => exact ih db hnd.2 hmem'
      | some ru =>
        have := ih (upsertRow now u ru db) hnd.2 hmem'
        rw [lookupRow_upsertRow_ne now u ru db t.local_id hne] at this
        exact this

/-- Claim C4: `record_task_sync_results` upserts the ledger row of every
task with a matching result: when no row with that `localId` exists a
fresh row with `created_at = now` is inserted (`freshRow`); when a row
exists, `provider`, `external_id`, `status`, `completed`,
`last_synced_at` and `last_error` are updated while every other column —
in particular `created_at` — keeps its value (`updatedRow`).  In
particular, two calls for the same `localId` leave `created_at` at the
first call's time while `status` and `external_id` take the second
result's values. -/
theorem record_task_sync_results_upsert :
    (∀ (now : String) (tasks : List LocalTask)
        (results : List TaskSyncResult) (db : List TaskRow)
        (t : LocalTask) (r : TaskSyncResult),
      (tasks.map (fun u => u.local_id)).Nodup → t ∈ tasks →
      resultFor results t.local_id = some r →
      lookupRow (record_task_sync_results now tasks results db) t.local_id =
        some (match lookupRow db t.local_id with
          | some old => updatedRow now t r old
          | none => freshRow now t r)) ∧
    (∀ (db : List TaskRow) (now1 now2 : String) (t : LocalTask)
        (r1 r2 : TaskSyncResult),
      lookupRow db t.local_id = none →
      r1.local_id = t.local_id → r2.local_id = t.local_id →
      ∃ row,
        lookupRow (record_task_sync_results now2 [t] [r2]
            (record_task_sync_results now1 [t] [r1] db)) t.local_id =
          some row ∧
        row.status = r2.status ∧ row.external_id = r2.external_id ∧
        row.created_at = now1) := by
  constructor
  · exact fun now tasks results db t r hnd hmem hres =>
      record_upsert_spec now tasks results db t r hnd hmem hres
  · intro db now1 now2 t r1 r2 hnone hr1 hr2
    have hres1 : resultFor [r1] t.local_id = some r1 := by
      unfold resultFor
      simp [hr1]
    have hres2 : resultFor [r2] t.local_id = some r2 := by
      unfold resultFor
      simp [hr2]
    have h1 := record_upsert_spec now1 [t] [r1] db t r1 (by simp)
      (List.mem_cons_self _ _) hres1
    rw [hnone] at h1
    have h2 := record_upsert_spec now2 [t] [r2]
      (record_task_sync_results now1 [t] [r1] db) t r2 (by simp)
      (List.mem_cons_self _ _) hres2
    rw [h1] at h2
    exact ⟨updatedRow now2 t r2 (freshRow now1 t r1), h2, rfl, rfl, rfl⟩

/-- Claim C4, witness: recording a fresh task inserts a row with
`created_at` equal to the call time, and a second call with a changed
status updates `status`/`external_id` while `created_at` keeps its first
value. -/
theorem record_task_sync_results_upsert_witness :
    ∃ row,
      lookupRow (record_task_sync_results "2025-01-02T00:00:00" [exTaskDone]
          [exResult2] (record_task_sync_results "2025-01-01T00:00:00"
            [exTaskDone] [exResult1] [])) exTaskDone.local_id = some row ∧
      row.status = "updated" ∧ row.external_id = some "ext-2" ∧
      row.created_at = "2025-01-01T00:00:00" := by
  obtain ⟨row, h1, h2, h3, h4⟩ :=
    record_task_sync_results_upsert.2 [] "2025-01-01T00:00:00"
      "2025-01-02T00:00:00" exTaskDone exResult1 exResult2 rfl rfl rfl
  exact ⟨row, h1, by rw [h2]; rfl, by rw [h3]; rfl, h4⟩

/-- Claim C3: every task in the batch handed to the provider by
`process_note_for_bridge` is open (`completed = false`) and previously
unseen (its `localId` has no row in the ledger); this holds for every
ledger state, hence in every run. -/
theorem provider_batch_open_and_unknown (tasks : List LocalTask)
    (db : List TaskRow) (t : LocalTask) (h : t ∈ newOpenTasks tasks db) :
    t.completed = false ∧ lookupRow db t.local_id = none := by
  unfold newOpenTasks at h
  have h2 := List.mem_filter.mp h
  have h1 := List.mem_filter.mp h2.1
  refine ⟨by simpa using h2.2, ?_⟩
  have hmem : t ∈ tasks := h1.1
  have hnk := h1.2
  cases hl : lookupRow db t.local_id with
  | none => rfl
  | some row =>
    exfalso
    have hids : t.local_id ∈ tasks.map (fun u => u.local_id) :=
      List.mem_map_of_mem _ hmem
    have hne : ¬(tasks.map (fun u => u.local_id)).isEmpty := by
      cases tasks with
      | nil => cases hmem
      | cons a l => simp
    have hk : t.local_id ∈
        get_known_task_ids (tasks.map (fun u => u.local_id)) db := by
      unfold get_known_task_ids
      rw [if_neg (by simp [hne])]
      exact List.mem_filter.mpr ⟨hids, by simp [hl]⟩
    have hc : (get_known_task_ids (tasks.map (fun u => u.local_id))
        db).contains t.local_id = true := by simpa using hk
    rw [hc] at hnk
    simp at hnk

/-- Claim C3, witness. -/
theorem provider_batch_open_and_unknown_witness :
    exTaskOpen.completed = false ∧ lookupRow [] exTaskOpen.local_id = none :=
  provider_batch_open_and_unknown [exTaskOpen] [] exTaskOpen (by decide)

/-- Claim C2, amended: a previously unseen task with `completed = true` is
not recorded: `process_note_for_bridge` filters completed tasks out
before the provider call and passes only the remaining new open tasks to
`record_task_sync_results`, so the ledger entry at the completed task's
`localId` is exactly what it was before the run (in particular, starting
from a ledger with no such row, no row is created). -/
theorem completed_task_leaves_ledger_unchanged (tasks : List LocalTask)
    (db : List TaskRow) (provider : List LocalTask → List TaskSyncResult)
    (now : String) (t : LocalTask)
    (hnd : (tasks.map (fun u => u.local_id)).Nodup) (hmem : t ∈ tasks)
    (hdone : t.completed = true) :
    lookupRow (processNoteTasks tasks db provider now) t.local_id =
      lookupRow db t.local_id := by
  unfold processNoteTasks
  by_cases he : tasks.isEmpty
  · rw [if_pos he]
  · rw [if_neg he]
    by_cases hno : (newOpenTasks tasks db).isEmpty
    · rw [if_pos hno]
    · rw [if_neg hno]
      apply lookupRow_record_of_not_mem
      intro u hu heq
      unfold newOpenTasks at hu
      have h2 := List.mem_filter.mp hu
      have h1 := List.mem_filter.mp h2.1
      have hut : u = t :=
        List.inj_on_of_nodup_map hnd h1.1 hmem heq
      rw [hut] at h2
      simp [hdone] at h2

/-- Claim C2, amended, witness. -/
theorem completed_task_leaves_ledger_unchanged_witness :
    lookupRow (processNoteTasks [exTaskDone] [] exProvider
        "2025-01-01T00:00:00") exTaskDone.local_id =
      lookupRow [] exTaskDone.local_id :=
  completed_task_leaves_ledger_unchanged [exTaskDone] [] exProvider
    "2025-01-01T00:00:00" exTaskDone (by decide) (by decide) (by decide)

/-- Claim C5, counterexample: for the adjacent lines `"abc"` / `"Def"` all
of the claim's side conditions hold (previous line non-blank, no trailing
double space, not a heading; current line matches no new-block pattern,
is not blank, and no heading occurs within 5 lines), yet pass 1 does not
merge them: a current line beginning with an uppercase letter is a hard
boundary regardless of any heading window. -/
theorem uppercase_boundary_cex :
    pyStripL ("abc".data) ≠ [] ∧ endsTwoSpaces ("abc".data) = false ∧
    headingStartL ("abc".data) = false ∧ isNewBlockL ("Def".data) = false ∧
    pyStripL ("Def".data) ≠ [] ∧
    pass1 ["abc".data, "Def".data] = ["abc".data, "Def".data] ∧
    pass1 ["abc".data, "Def".data] ≠ ["abc Def".data] := by decide

/-- Claim C5, amended: a pass-1 step merges the current line into the
previous output line exactly when the previous line is not a hard
boundary (non-blank, no trailing double space, not a heading), the
current line matches no new-block pattern, the current line does not
begin with an uppercase letter (this check is unconditional, not limited
to the 5-line window after a heading), and the step is more than 5 lines
past the most recent heading; the join drops the trailing hyphen when the
previous line ends in a hyphen after a non-space non-hyphen character,
and otherwise inserts a single space after right-trimming the previous
line and left-trimming the continuation. -/
theorem merge_step_amended (prev : List Char) (outTail : List (List Char))
    (lhi : Int) (line : List Char) (rest : List (List Char))
    (h1 : pyStripL prev ≠ []) (h2 : endsTwoSpaces prev = false)
    (h3 : headingStartL prev = false) (h4 : isNewBlockL line = false)
    (h5 : currLooksItemL line = false)
    (h6 : 5 < (outTail.length : Int) + 1 - lhi) :
    pass1Go prev outTail lhi (line :: rest) =
      pass1Go (if prevHyphenL prev then prev.dropLast ++ pyLstripL line
               else pyRstripL prev ++ ' ' :: pyLstripL line)
        outTail lhi rest := by
  have hhead : headingStartL line = false := by
    revert h4
    unfold isNewBlockL
    cases headingStartL line <;> simp
  have h7 : ¬((outTail.length : Int) + 1 - lhi ≤ 5) := not_le.mpr h6
  conv_lhs => rw [pass1Go.eq_def]
  simp [h1, h2, h3, h4, h5, hhead, h7]

/-- Claim C5, amended, witness: a lowercase continuation far from any
heading is merged with a single joining space. -/
theorem merge_step_amended_witness :
    pass1Go ("hello world".data) [] (-10) ["continues here".data] =
      ["hello world continues here".data] :=
  (merge_step_amended ("hello world".data) [] (-10) ("continues here".data)
    [] (by decide) (by decide) (by decide) (by decide) (by decide)
    (by decide)).trans (by decide)

/-- Claim C7: the reflow engine is total by construction (every function
of this embedding is total), and content matched by no structural rule
degrades to a plain line: when a merged line is neither blank nor a
heading and, after glyph normalization, none of the mid-line, leading
nested-bullet, nesting-marker, checklist, bullet-glyph or numbered rules
match, pass 2 emits exactly the normalized line with trailing whitespace
trimmed. -/
theorem classify_fallthrough_plain (l : List Char)
    (hblank : pyStripL l ≠ []) (hhead : headingStartL l = false)
    (hmid : midMatch (normalizeGlyphs l) = none)
    (hspecial : specialMatch (normalizeGlyphs l) = none)
    (hnest : nestMatch (normalizeGlyphs l) = none)
    (htask : taskMatch (normalizeGlyphs l) = none)
    (hbullet : bulletMatch (normalizeGlyphs l) = none)
    (hnum : numMatch (normalizeGlyphs l) = none) :
    classifyLine l = [pyRstripL (normalizeGlyphs l)] := by
  unfold classifyLine
  rw [if_neg (by simp [hblank, hhead])]
  simp [hmid, hspecial, hnest, htask, hbullet, hnum]

/-- Claim C7, witness. -/
theorem classify_fallthrough_plain_witness :
    classifyLine ("just plain text ".data) = ["just plain text".data] :=
  (classify_fallthrough_plain ("just plain text ".data) (by decide)
    (by decide) (by decide) (by decide) (by decide) (by decide) (by decide)
    (by decide)).trans (by decide)

theorem digitChar_toNat {n : Nat} (h : n < 10) :
    (Nat.digitChar n).toNat = 48 + n := by
  interval_cases n <;> rfl

theorem decVal_append_digit (ds : List Char) (c : Char) :
    decVal (ds ++ [c]) = 10 * decVal ds + (c.toNat - 48) := by
  unfold decVal
  rw [List.foldl_append]
  rfl

theorem decVal_natToDecAux : ∀ fuel n, n < fuel →
    decVal (natToDecAux fuel n) = n := by
  intro fuel
  induction fuel with
  | zero => omega
  | succ f ih =>
    intro n h
    unfold natToDecAux
    by_cases h10 : n < 10
    · rw [if_pos h10]
      unfold decVal
      rw [List.foldl_cons, List.foldl_nil, digitChar_toNat h10]
      omega
    · rw [if_neg h10]
      have hpos : 0 < n := by omega
      have hdiv : n / 10 < n := Nat.div_lt_self hpos (by omega)
      have hlt : n / 10 < f := by omega
      rw [decVal_append_digit, ih _ hlt,
        digitChar_toNat (Nat.mod_lt n (by omega))]
      omega

theorem natToDecL_injective : Function.Injective natToDecL := by
  intro a b h
  have ha := decVal_natToDecAux (a + 1) a (Nat.lt_succ_self a)
  have hb := decVal_natToDecAux (b + 1) b (Nat.lt_succ_self b)
  unfold natToDecL at h
  rw [h, hb] at ha
  exact ha.symm

theorem natToDec_append_inj (p : String) {a b : Nat}
    (h : p ++ natToDec a = p ++ natToDec b) : a = b := by
  have hd : (p ++ natToDec a).data = (p ++ natToDec b).data :=
    congrArg String.data h
  rw [String.data_append, String.data_append] at hd
  have := List.append_cancel_left hd
  exact natToDecL_injective this

theorem extractGo_mem_iff (bname vname npath : String) :
    ∀ (k : Nat) (lines : List (List Char)) (t : LocalTask),
    t ∈ extractGo bname vname npath k lines ↔
      ∃ i lline m title, lines[i]? = some lline ∧
        taskLineMatch lline = some (m, title) ∧ pyStripL title ≠ [] ∧
        t = { local_id := bname ++ ":" ++ npath ++ ":" ++ natToDec (k + i),
              bridge_name := bname, vault_name := vname, note_path := npath,
              line_no := k + i, title := String.mk (pyStripL title),
              completed := (m = 'x' || m = 'X') } := by
  intro k lines
  induction lines generalizing k with
  | nil => intro t; simp [extractGo]
  | cons line rest ih =>
    intro t
    cases hm : taskLineMatch line with
    | none =>
      have hgo : extractGo bname vname npath k (line :: rest) =
          extractGo bname vname npath (k + 1) rest := by
        simp only [extractGo, hm]
      rw [hgo, ih (k + 1) t]
      constructor
      · rintro ⟨i, lline, m, title, h1, h2, h3, h4⟩
        refine ⟨i + 1, lline, m, title, by simpa using h1, h2, h3, ?_⟩
        have he : k + 1 + i = k + (i + 1) := by omega
        rw [← he]
        exact h4
      · rintro ⟨i, lline, m, title, h1, h2, h3, h4⟩
        cases i with
        | zero =>
          exfalso
          have hl : lline = line := by simpa using h1.symm
          rw [hl, hm] at h2
          cases h2
        | succ j =>
          refine ⟨j, lline, m, title, by simpa using h1, h2, h3, ?_⟩
          have he : k + (j + 1) = k + 1 + j := by omega
          rw [← he]
          exact h4
    | some mt =>
      obtain ⟨m0, title0⟩ := mt
      cases hemp : (pyStripL title0).isEmpty with
      | true =>
        have hgo : extractGo bname vname npath k (line :: rest) =
            extractGo bname vname npath (k + 1) rest := by
          simp [extractGo, hm, hemp]
        rw [hgo, ih (k + 1) t]
        constructor
        · rintro ⟨i, lline, m, title, h1, h2, h3, h4⟩
          refine ⟨i + 1, lline, m, title, by simpa using h1, h2, h3, ?_⟩
          have he : k + 1 + i = k + (i + 1) := by omega
          rw [← he]
          exact h4
        · rintro ⟨i, lline, m, title, h1, h2, h3, h4⟩
          cases i with
          | zero =>
            exfalso
            have hl : lline = line := by simpa using h1.symm
            rw [hl, hm] at h2
            have hmt : m0 = m ∧ title0 = title := by simpa using h2
            apply h3
            rw [← hmt.2]
            simpa using hemp
          | succ j =>
            refine ⟨j, lline, m, title, by simpa using h1, h2, h3, ?_⟩
            have he : k + (j + 1) = k + 1 + j := by omega
            rw [← he]
            exact h4
      | false =>
        have hgo : extractGo bname vname npath k (line :: rest) =
            { local_id := bname ++ ":" ++ npath ++ ":" ++ natToDec k,
              bridge_name := bname, vault_name := vname, note_path := npath,
              line_no := k, title := String.mk (pyStripL title0),
              completed := (m0 = 'x' || m0 = 'X') } ::
              extractGo bname vname npath (k + 1) rest := by
          simp [extractGo, hm, hemp]
        rw [hgo, List.mem_cons, ih (k + 1) t]
        constructor
        · rintro (rfl | ⟨i, lline, m, title, h1, h2, h3, h4⟩)
          · refine ⟨0, line, m0, title0, by simp, hm, ?_, by simp⟩
            intro hnil
            rw [hnil] at hemp
            simp at hemp
          · refine ⟨i + 1, lline, m, title, by simpa using h1, h2, h3, ?_⟩
            have he : k + 1 + i = k + (i + 1) := by omega
            rw [← he]
            exact h4
        · rintro ⟨i, lline, m, title, h1, h2, h3, h4⟩
          cases i with
          | zero =>
            left
            have hl : lline = line := by simpa using h1.symm
            rw [hl, hm] at h2
            have hmt : m0 = m ∧ title0 = title := by simpa using h2
            rw [h4, ← hmt.1, ← hmt.2]
            simp
          | succ j =>
            right
            refine ⟨j, lline, m, title, by simpa using h1, h2, h3, ?_⟩
            have he : k + (j + 1) = k + 1 + j := by omega
            rw [← he]
            exact h4

theorem extractGo_id_form (bname vname npath : String) (k : Nat)
    (lines : List (List Char)) (t : LocalTask)
    (h : t ∈ extractGo bname vname npath k lines) :
    t.local_id = bname ++ ":" ++ npath ++ ":" ++ natToDec t.line_no := by
  obtain ⟨i, lline, m, title, h1, h2, h3, h4⟩ :=
    (extractGo_mem_iff bname vname npath k lines t).mp h
  rw [h4]

theorem extractGo_lineNo_le (bname vname npath : String) (k : Nat)
    (lines : List (List Char)) (t : LocalTask)
    (h : t ∈ extractGo bname vname npath k lines) : k ≤ t.line_no := by
  obtain ⟨i, lline, m, title, h1, h2, h3, h4⟩ :=
    (extractGo_mem_iff bname vname npath k lines t).mp h
  rw [h4]
  exact Nat.le_add_right k i

theorem extractGo_pairwise_lt (bname vname npath : String) :
    ∀ (k : Nat) (lines : List (List Char)),
    (extractGo bname vname npath k lines).Pairwise
      (fun a b => a.line_no < b.line_no) := by
  intro k lines
  induction lines generalizing k with
  | nil => simp [extractGo]
  | cons line rest ih =>
    cases hm : taskLineMatch line with
    | none =>
      have hgo : extractGo bname vname npath k (line :: rest) =
          extractGo bname vname npath (k + 1) rest := by
        simp [extractGo, hm]
      rw [hgo]
      exact ih (k + 1)
    | some mt =>
      obtain ⟨m0, title0⟩ := mt
      cases hemp : (pyStripL title0).isEmpty with
      | true =>
        have hgo : extractGo bname vname npath k (line :: rest) =
            extractGo bname vname npath (k + 1) rest := by
          simp [extractGo, hm, hemp]
        rw [hgo]
        exact ih (k + 1)
      | false =>
        have hgo : extractGo bname vname npath k (line :: rest) =
            { local_id := bname ++ ":" ++ npath ++ ":" ++ natToDec k,
              bridge_name := bname, vault_name := vname, note_path := npath,
              line_no := k, title := String.mk (pyStripL title0),
              completed := (m0 = 'x' || m0 = 'X') } ::
              extractGo bname vname npath (k + 1) rest := by
          simp [extractGo, hm, hemp]
        rw [hgo]
        refine List.Pairwise.cons ?_ (ih (k + 1))
        intro u hu
        have hle := extractGo_lineNo_le bname vname npath (k + 1) rest u hu
        show k < u.line_no
        omega

/-- Claim C6: for every body and identity context, a task is produced by
`extract_tasks_from_markdown` exactly for the lines of the finalized
text's `splitlines` that match the canonical checklist pattern
`^(\s*)-\s\[( |x|X)\]\s+(.*)$` with a non-empty trimmed title; the task's
`completed` flag is true iff the mark is `x`/`X`, its title is the
trimmed remainder, its `lineNumber` is the 1-based index of the line, and
`local_id = bridgeId ++ ":" ++ notePath ++ ":" ++ str(lineNumber)`.  One
task per matching line: by `extract_tasks_ids_nodup` the line numbers are
strictly increasing, so each index yields exactly one task. -/
theorem extract_tasks_characterization (md_body : String)
    (bridge : BridgeConfig) (rel_md_path : String) (t : LocalTask) :
    t ∈ extract_tasks_from_markdown md_body bridge rel_md_path ↔
      ∃ i lline m title,
        (pySplitlines md_body.data)[i]? = some lline ∧
        taskLineMatch lline = some (m, title) ∧ pyStripL title ≠ [] ∧
        t = { local_id := bridge.name ++ ":" ++ rel_md_path ++ ":" ++
                natToDec (1 + i),
              bridge_name := bridge.name,
              vault_name := bridge.vault_path_name,
              note_path := rel_md_path, line_no := 1 + i,
              title := String.mk (pyStripL title),
              completed := (m = 'x' || m = 'X') } :=
  extractGo_mem_iff bridge.name bridge.vault_path_name rel_md_path 1
    (pySplitlines md_body.data) t

/-- Claim C10: within one call of `extract_tasks_from_markdown` the tasks
carry strictly increasing line numbers, and hence their `local_id` values
are pairwise distinct — one extraction can never produce two tasks that
collide on the ledger's primary key. -/
theorem extract_tasks_ids_nodup (md_body : String) (bridge : BridgeConfig)
    (rel_md_path : String) :
    (extract_tasks_from_markdown md_body bridge rel_md_path).Pairwise
      (fun a b => a.line_no < b.line_no) ∧
    ((extract_tasks_from_markdown md_body bridge rel_md_path).map
      (fun t => t.local_id)).Nodup := by
  constructor
  · exact extractGo_pairwise_lt bridge.name bridge.vault_path_name
      rel_md_path 1 (pySplitlines md_body.data)
  · have hpw : (extract_tasks_from_markdown md_body bridge
        rel_md_path).Pairwise (fun a b => a.local_id ≠ b.local_id) := by
      apply List.Pairwise.imp_of_mem ?_
        (extractGo_pairwise_lt bridge.name bridge.vault_path_name
          rel_md_path 1 (pySplitlines md_body.data))
      intro a b ha hb hlt heq
      have hida := extractGo_id_form bridge.name bridge.vault_path_name
        rel_md_path 1 (pySplitlines md_body.data) a ha
      have hidb := extractGo_id_form bridge.name bridge.vault_path_name
        rel_md_path 1 (pySplitlines md_body.data) b hb
      rw [hida, hidb] at heq
      have := natToDec_append_inj _ heq
      omega
    exact List.pairwise_map.mpr hpw

theorem dropWhile_idem (p : Char → Bool) (l : List Char) :
    (l.dropWhile p).dropWhile p = l.dropWhile p := by
  induction l with
  | nil => rfl
  | cons a l ih =>
    rw [List.dropWhile_cons]
    by_cases hp : p a = true
    · rw [if_pos hp]; exact ih
    · rw [if_neg hp, List.dropWhile_cons, if_neg hp]

theorem pyStripL_dropWhile (t : List Char) :
    pyStripL (t.dropWhile isPySpace) = pyStripL t := by
  unfold pyStripL pyLstripL
  rw [dropWhile_idem]

theorem pyLstripL_ne_nil_of_strip {pre : List Char}
    (h : pyStripL pre ≠ []) : pre.dropWhile isPySpace ≠ [] := by
  intro he
  exact h (by simp [pyStripL, pyLstripL, pyRstripL, he])

theorem dropWhile_ws_append {pre x : List Char} (h : pyStripL pre ≠ []) :
    (pre ++ x).dropWhile isPySpace = pre.dropWhile isPySpace ++ x := by
  rw [List.dropWhile_append,
    if_neg (by simp [List.isEmpty_iff, pyLstripL_ne_nil_of_strip h])]

theorem takeWhile_hash_replicate (k : Nat) :
    (List.replicate k '#').takeWhile (fun c => c = '#') =
      List.replicate k '#' := by
  rw [List.takeWhile_replicate, if_pos (by simp)]

theorem takeWhile_hash_append (k : Nat) (t : List Char)
    (h : t.head? ≠ some '#') :
    (List.replicate k '#' ++ t).takeWhile (fun c => c = '#') =
      List.replicate k '#' := by
  rw [List.takeWhile_append, takeWhile_hash_replicate,
    if_pos (by rw [List.length_replicate])]
  cases t with
  | nil => simp
  | cons c r =>
    have hc : c ≠ '#' := by simpa using h
    rw [List.takeWhile_cons, if_neg (by simpa using hc), List.append_nil]

theorem drop_hash_append (k : Nat) (t : List Char) :
    (List.replicate k '#' ++ t).drop k = t := by
  have := List.drop_left (List.replicate k '#') t
  rwa [List.length_replicate] at this

theorem take_append_eq (pre x : List Char) :
    (pre ++ x).take pre.length = pre := List.take_left pre x

theorem prefix_replicate_head {k : Nat} {s : List Char} (hk : 1 ≤ k)
    (h : (List.replicate k '#').isPrefixOf s = true) :
    s.head? = some '#' := by
  obtain ⟨k', rfl⟩ : ∃ k', k = k' + 1 := ⟨k - 1, by omega⟩
  rw [List.replicate_succ] at h
  cases s with
  | nil => cases h
  | cons c r =>
    rw [List.isPrefixOf_cons₂] at h
    rw [Bool.and_eq_true] at h
    have : '#' = c := by simpa using h.1
    rw [← this]
    rfl

theorem not_prefix_replicate_short {k m : Nat} {t : List Char}
    (hm : m < k) (ht : '#' ∉ t) :
    ¬(List.replicate k '#').isPrefixOf (List.replicate m '#' ++ t) =
      true := by
  induction m generalizing k with
  | zero =>
    intro h
    simp only [List.replicate, List.nil_append] at h
    have := prefix_replicate_head (by omega) h
    cases t with
    | nil => cases this
    | cons c r =>
      have : c = '#' := by simpa using this
      exact ht (this ▸ List.mem_cons_self c r)
  | succ m' ih =>
    intro h
    obtain ⟨k', rfl⟩ : ∃ k', k = k' + 1 := ⟨k - 1, by omega⟩
    rw [List.replicate_succ, List.replicate_succ, List.cons_append,
      List.isPrefixOf_cons₂, Bool.and_eq_true] at h
    exact @ih k' (by omega) h.2

theorem takeWhile_ws_hash_append (k : Nat) (t : List Char) (hk : 1 ≤ k) :
    (List.replicate k '#' ++ t).takeWhile isPySpace = [] := by
  obtain ⟨k', rfl⟩ : ∃ k', k = k' + 1 := ⟨k - 1, by omega⟩
  rw [List.replicate_succ, List.cons_append, List.takeWhile_cons,
    if_neg (by decide)]

theorem dropWhile_ws_hash_append (k : Nat) (t : List Char) (hk : 1 ≤ k) :
    (List.replicate k '#' ++ t).dropWhile isPySpace =
      List.replicate k '#' ++ t := by
  obtain ⟨k', rfl⟩ : ∃ k', k = k' + 1 := ⟨k - 1, by omega⟩
  rw [List.replicate_succ, List.cons_append, List.dropWhile_cons,
    if_neg (by decide)]

/-- `headMatch` on a line that is exactly a maximal hash run of length
1..6 followed by text containing a non-space character. -/
theorem headMatch_run (k : Nat) (t : List Char) (hk1 : 1 ≤ k)
    (hk6 : k ≤ 6) (hhd : t.head? ≠ some '#')
    (hws : t.dropWhile isPySpace ≠ []) :
    headMatch (List.replicate k '#' ++ t) =
      some ([], List.replicate k '#', t.dropWhile isPySpace) := by
  have h1 := takeWhile_ws_hash_append k t hk1
  have h2 := dropWhile_ws_hash_append k t hk1
  have h3 := takeWhile_hash_append k t hhd
  simp only [headMatch, h1, h2, h3, List.length_replicate, drop_hash_append]
  rw [if_neg (by omega), if_neg (by omega), if_pos hws]

theorem hashGroupAt_run (k : Nat) (t : List Char) (hk1 : 1 ≤ k)
    (hk6 : k ≤ 6) (hhd : t.head? ≠ some '#')
    (hws : t.dropWhile isPySpace ≠ []) :
    hashGroupAt (List.replicate k '#' ++ t) =
      some (List.replicate k '#') := by
  have h3 := takeWhile_hash_append k t hhd
  simp only [hashGroupAt, h3, List.length_replicate, drop_hash_append]
  rw [if_neg (by omega), if_neg (by omega), if_pos hws]

theorem hashGroupAt_not_hash {c : Char} (rest : List Char) (hc : c ≠ '#') :
    hashGroupAt (c :: rest) = none := by
  have h1 : (c :: rest).takeWhile (fun x => x = '#') = [] := by
    rw [List.takeWhile_cons, if_neg (by simpa using hc)]
  simp only [hashGroupAt, h1, List.length_nil]
  simp

theorem inlineSearch_append (pre m : List Char) (hpre : '#' ∉ pre) :
    inlineSearch (pre ++ m) = inlineSearch m := by
  induction pre with
  | nil => rfl
  | cons c r ih =>
    have hc : c ≠ '#' := fun he => hpre (he ▸ List.mem_cons_self c r)
    have hrm : '#' ∉ r := fun hm => hpre (List.mem_cons_of_mem c hm)
    rw [List.cons_append]
    have hstep : inlineSearch (c :: (r ++ m)) = inlineSearch (r ++ m) := by
      rw [inlineSearch.eq_def]
      dsimp only
      rw [hashGroupAt_not_hash (r ++ m) hc]
    rw [hstep]
    exact ih hrm

theorem inlineSearch_of_hashGroupAt {l : List Char} {hs : List Char}
    (hne : l ≠ []) (h : hashGroupAt l = some hs) :
    inlineSearch l = some hs := by
  cases l with
  | nil => cases hne rfl
  | cons c rest =>
    unfold inlineSearch
    rw [h]

theorem filter_range_eq_singleton (pred : Nat → Bool) (p : Nat)
    (hp : pred p = true) (hu : ∀ i, pred i = true → i = p) :
    ∀ m, p < m → (List.range m).filter pred = [p] := by
  intro m
  induction m with
  | zero => omega
  | succ m' ih =>
    intro hpm
    rw [List.range_succ, List.filter_append]
    by_cases hppm : p = m'
    · subst hppm
      have h1 : (List.range p).filter pred = [] := by
        rw [List.filter_eq_nil_iff]
        intro a ha hpa
        rw [hu a hpa] at ha
        exact absurd (List.mem_range.mp ha) (lt_irrefl p)
      rw [h1, List.nil_append]
      simp [hp]
    · have h1 := ih (by omega)
      have h2 : List.filter pred [m'] = [] := by
        cases hpm' : pred m' with
        | true => exact absurd (hu m' hpm').symm hppm
        | false => simp [hpm']
      rw [h1, h2, List.append_nil]

theorem rfindSub_hash_run (pre t : List Char) (k : Nat) (hk1 : 1 ≤ k)
    (hpre : '#' ∉ pre) (ht : '#' ∉ t) :
    rfindSub (pre ++ (List.replicate k '#' ++ t)) (List.replicate k '#') =
      some pre.length := by
  have hocc : (List.replicate k '#').isPrefixOf
      ((pre ++ (List.replicate k '#' ++ t)).drop pre.length) = true := by
    rw [List.drop_left]
    exact List.isPrefixOf_iff_prefix.mpr (List.prefix_append _ _)
  have huniq : ∀ i, (List.replicate k '#').isPrefixOf
      ((pre ++ (List.replicate k '#' ++ t)).drop i) = true →
      i = pre.length := by
    intro i hi
    have hhead := prefix_replicate_head hk1 hi
    rw [List.head?_drop] at hhead
    by_cases hlt : i < pre.length
    · exfalso
      rw [List.getElem?_append, if_pos hlt] at hhead
      have : '#' ∈ pre := List.getElem?_mem hhead
      exact hpre this
    · push_neg at hlt
      by_cases hgt : pre.length < i
      · exfalso
        have hdrop : (pre ++ (List.replicate k '#' ++ t)).drop i =
            (List.replicate k '#' ++ t).drop (i - pre.length) := by
          rw [List.drop_append_eq_append_drop,
            List.drop_eq_nil_of_le (by omega), List.nil_append]
        rw [hdrop] at hi
        set j := i - pre.length with hj
        have hj1 : 1 ≤ j := by omega
        by_cases hjk : j < k
        · have hdrop2 : (List.replicate k '#' ++ t).drop j =
              List.replicate (k - j) '#' ++ t := by
            rw [List.drop_append_eq_append_drop, List.drop_replicate,
              List.length_replicate]
            have hz : j - k = 0 := by omega
            rw [hz, List.drop_zero]
          rw [hdrop2] at hi
          exact not_prefix_replicate_short (by omega) ht hi
        · have hdrop2 : (List.replicate k '#' ++ t).drop j =
              t.drop (j - k) := by
            rw [List.drop_append_eq_append_drop,
              List.drop_eq_nil_of_le (by rw [List.length_replicate]; omega),
              List.length_replicate, List.nil_append]
          rw [hdrop2] at hi
          have hhd := prefix_replicate_head hk1 hi
          rw [List.head?_drop] at hhd
          exact ht (List.getElem?_mem hhd)
      · omega
  have hlen : pre.length < (pre ++ (List.replicate k '#' ++ t)).length + 1 := by
    rw [List.length_append]
    omega
  unfold rfindSub
  rw [filter_range_eq_singleton _ pre.length hocc huniq _ hlen]
  exact List.getLast?_singleton pre.length

/-- Claim C9, amended: (a) a line starting at column zero with a maximal
run of 1–6 `#` characters followed — immediately or after whitespace —
by text containing a non-space character is rewritten as the hash run, a
single space, and the title with surrounding whitespace trimmed; this
normalize branch takes priority over splitting.  (b) The inline-split
rule applies only when the normalize branch does not: a line made of
`#`-free non-blank text, then a 1–6 `#` run, then a `#`-free remainder
containing non-space text, is split into the right-trimmed preceding
text and the normalized heading. -/
theorem aggressive_cleanup_amended :
    (∀ (k : Nat) (t : List Char), 1 ≤ k → k ≤ 6 →
      t.head? ≠ some '#' → pyStripL t ≠ [] →
      cleanupLine (List.replicate k '#' ++ t) =
        [List.replicate k '#' ++ ' ' :: pyStripL t]) ∧
    (∀ (pre t : List Char) (k : Nat), 1 ≤ k → k ≤ 6 →
      '#' ∉ pre → '#' ∉ t → pyStripL pre ≠ [] → pyStripL t ≠ [] →
      cleanupLine (pre ++ (List.replicate k '#' ++ t)) =
        [pyRstripL pre, List.replicate k '#' ++ ' ' :: pyStripL t]) := by
  constructor
  · intro k t hk1 hk6 hhd ht
    have htws : t.dropWhile isPySpace ≠ [] := by
      intro he
      apply ht
      rw [← pyStripL_dropWhile, he]
      rfl
    have hm := headMatch_run k t hk1 hk6 hhd htws
    have hlstrip : (List.replicate k '#' ++ t).dropWhile isPySpace =
        List.replicate k '#' ++ t := dropWhile_ws_hash_append k t hk1
    have hpref : (List.replicate k '#').isPrefixOf
        (List.replicate k '#' ++ t) = true :=
      List.isPrefixOf_iff_prefix.mpr (List.prefix_append _ _)
    simp only [cleanupLine, hm, pyLstripL, hlstrip, hpref, if_true,
      List.nil_append, pyStripL_dropWhile]
  · intro pre t k hk1 hk6 hpreh hth hpre ht
    have htws : t.dropWhile isPySpace ≠ [] := by
      intro he
      apply ht
      rw [← pyStripL_dropWhile, he]
      rfl
    have hthd : t.head? ≠ some '#' := by
      cases t with
      | nil => simp
      | cons c r =>
        intro h
        have : c = '#' := by simpa using h
        exact hth (this ▸ List.mem_cons_self c r)
    have hdpre : pre.dropWhile isPySpace ≠ [] := pyLstripL_ne_nil_of_strip hpre
    obtain ⟨c0, r0, hc0⟩ : ∃ c0 r0, pre.dropWhile isPySpace = c0 :: r0 := by
      cases h : pre.dropWhile isPySpace with
      | nil => exact absurd h hdpre
      | cons a b => exact ⟨a, b, rfl⟩
    have hc0mem : c0 ∈ pre := by
      have hsub : (pre.dropWhile isPySpace).Sublist pre :=
        List.dropWhile_sublist isPySpace
      rw [hc0] at hsub
      exact hsub.subset (List.mem_cons_self c0 r0)
    have hc0hash : c0 ≠ '#' := fun he => hpreh (he ▸ hc0mem)
    have hheadnone :
        headMatch (pre ++ (List.replicate k '#' ++ t)) = none := by
      have hd : (pre ++ (List.replicate k '#' ++ t)).dropWhile isPySpace =
          c0 :: (r0 ++ (List.replicate k '#' ++ t)) := by
        rw [dropWhile_ws_append hpre, hc0, List.cons_append]
      have htw : ((pre ++ (List.replicate k '#' ++
          t)).dropWhile isPySpace).takeWhile (fun x => x = '#') = [] := by
        rw [hd, List.takeWhile_cons, if_neg (by simpa using hc0hash)]
      simp only [headMatch, htw, List.length_nil]
      simp
    have hga : hashGroupAt (List.replicate k '#' ++ t) =
        some (List.replicate k '#') := hashGroupAt_run k t hk1 hk6 hthd htws
    have hinline : inlineSearch (pre ++ (List.replicate k '#' ++ t)) =
        some (List.replicate k '#') := by
      rw [inlineSearch_append pre _ hpreh]
      refine inlineSearch_of_hashGroupAt ?_ hga
      intro he
      have := congrArg List.length he
      simp at this
      omega
    have hrf := rfindSub_hash_run pre t k hk1 hpreh hth
    have hhm := headMatch_run k t hk1 hk6 hthd htws
    have hprelen : 0 < pre.length := by
      cases pre with
      | nil => exact absurd rfl hpre
      | cons a b => simp
    simp only [cleanupLine, hheadnone, hinline, hrf, take_append_eq,
      List.drop_left, hhm, pyStripL_dropWhile]
    simp [hprelen, hpre]

/-- Claim C9, amended, witness: the whitespace-separated heading
`"##   Title"` is normalized in place (the case the counterexample turns
on), and `"second bullets ##Subheading"` is split into the preceding
text and the normalized heading. -/
theorem aggressive_cleanup_amended_witness :
    cleanupLine ("##   Title".data) = ["## Title".data] ∧
    cleanupLine ("second bullets ##Subheading".data) =
      ["second bullets".data, "## Subheading".data] := by
  constructor
  · have h := aggressive_cleanup_amended.1 2 ("   Title".data)
      (by decide) (by decide) (by decide) (by decide)
    have harg : ("##   Title".data) =
        List.replicate 2 '#' ++ ("   Title".data) := by decide
    rw [harg, h]
    decide
  · have h := aggressive_cleanup_amended.2 ("second bullets ".data)
      ("Subheading".data) 2 (by decide) (by decide) (by decide) (by decide)
      (by decide) (by decide)
    have harg : ("second bullets ##Subheading".data) =
        ("second bullets ".data) ++
          (List.replicate 2 '#' ++ ("Subheading".data)) := by decide
    rw [harg, h]
    decide

end Supersidian
